import Mathlib

/-!
Verification of the `rust-cktap` command/response protocol layer.

The development shallowly embeds `src/lib.rs` (frame codec, typed
commands/responses, CBOR response decoding) and the session-driving logic of
`examples/pcsc.rs`.  Rust `Vec<u8>` buffers become `List Nat`, Rust `String`
values become their UTF-8 byte lists (`List Nat`), `usize` becomes `Nat`
(with explicit `< 2^64` bounds where CBOR heads make overflow observable),
and fallible code returns `Option`/`Except`.  A Rust `panic!`/`assert!` is
modelled as `Option.none`.

The CBOR layer is a model of the `ciborium` collaborator restricted to the
definite-length items the crate exchanges (unsigned/negative integers, byte
strings, text strings, booleans, null, arrays, maps); `ciborium` structs
serialize to maps in field order with `None` as null, and deserialize from
maps by field name, ignoring unknown text keys, with missing or null
`Option` fields decoding to `none`.
-/

namespace CkTap

/-! ## CBOR value model (the `ciborium::value::Value` collaborator) -/

/-- A structured CBOR item, mirroring `ciborium::value::Value` on the subset
of items the protocol uses.  Text payloads are kept as their UTF-8 bytes. -/
inductive Value where
  | int (i : Int)
  | bytes (b : List Nat)
  | text (t : List Nat)
  | bool (b : Bool)
  | null
  | array (vs : List Value)
  | map (kvs : List (Value × Value))
  deriving Repr

/-- Encode a CBOR head: major type `m` with argument `n`, using the shortest
form, as `ciborium`'s serializer does.  The final branch writes the low 64
bits, matching the `u64` wire argument. -/
def encodeHead (m n : Nat) : List Nat :=
  if n < 24 then [32 * m + n]
  else if n < 256 then [32 * m + 24, n]
  else if n < 65536 then [32 * m + 25, n / 256 % 256, n % 256]
  else if n < 4294967296 then
    [32 * m + 26, n / 16777216 % 256, n / 65536 % 256, n / 256 % 256, n % 256]
  else
    [32 * m + 27, n / 72057594037927936 % 256, n / 281474976710656 % 256,
     n / 1099511627776 % 256, n / 4294967296 % 256, n / 16777216 % 256,
     n / 65536 % 256, n / 256 % 256, n % 256]

mutual

/-- Serialize a `Value` to bytes (the `ciborium::ser::into_writer`
collaborator): definite-length heads followed by payloads. -/
def encodeValue : Value → List Nat
  | .int i => if 0 ≤ i then encodeHead 0 i.toNat else encodeHead 1 (-(i + 1)).toNat
  | .bytes b => encodeHead 2 b.length ++ b
  | .text t => encodeHead 3 t.length ++ t
  | .bool false => [244]
  | .bool true => [245]
  | .null => [246]
  | .array vs => encodeHead 4 vs.length ++ encodeList vs
  | .map kvs => encodeHead 5 kvs.length ++ encodeKvs kvs

/-- Serialize the elements of a CBOR array, in order. -/
def encodeList : List Value → List Nat
  | [] => []
  | v :: vs => encodeValue v ++ encodeList vs

/-- Serialize the entries of a CBOR map, key then value, in order. -/
def encodeKvs : List (Value × Value) → List Nat
  | [] => []
  | (k, v) :: kvs => encodeValue k ++ encodeValue v ++ encodeKvs kvs

end

/-- Parse one CBOR head: returns the major type, the argument, and the
remaining input.  Indefinite lengths and reserved forms are rejected. -/
def decodeHead : List Nat → Option (Nat × Nat × List Nat)
  | [] => none
  | b :: rest =>
    let m := b / 32
    let a := b % 32
    if a < 24 then some (m, a, rest)
    else if a = 24 then
      match rest with
      | x0 :: r => some (m, x0, r)
      | [] => none
    else if a = 25 then
      match rest with
      | x1 :: x0 :: r => some (m, x1 * 256 + x0, r)
      | _ => none
    else if a = 26 then
      match rest with
      | x3 :: x2 :: x1 :: x0 :: r => some (m, ((x3 * 256 + x2) * 256 + x1) * 256 + x0, r)
      | _ => none
    else if a = 27 then
      match rest with
      | x7 :: x6 :: x5 :: x4 :: x3 :: x2 :: x1 :: x0 :: r =>
        some (m, ((((((x7 * 256 + x6) * 256 + x5) * 256 + x4) * 256 + x3) * 256 + x2)
          * 256 + x1) * 256 + x0, r)
      | _ => none
    else none

/-- Read exactly `n` bytes off the front of the input. -/
def readN : Nat → List Nat → Option (List Nat × List Nat)
  | 0, bs => some ([], bs)
  | _ + 1, [] => none
  | n + 1, b :: bs =>
    match readN n bs with
    | some (xs, r) => some (b :: xs, r)
    | none => none

/-- Parse `n` consecutive CBOR items (the body of a definite-length array),
each with the given item parser `dv`. -/
def decodeListF (dv : List Nat → Option (Value × List Nat)) :
    Nat → List Nat → Option (List Value × List Nat)
  | 0, bs => some ([], bs)
  | n + 1, bs =>
    match dv bs with
    | some (v, r) =>
      match decodeListF dv n r with
      | some (vs, r2) => some (v :: vs, r2)
      | none => none
    | none => none

/-- Parse `n` consecutive key/value pairs (the body of a definite-length
map), each with the given item parser `dv`. -/
def decodeKvsF (dv : List Nat → Option (Value × List Nat)) :
    Nat → List Nat → Option (List (Value × Value) × List Nat)
  | 0, bs => some ([], bs)
  | n + 1, bs =>
    match dv bs with
    | some (k, r) =>
      match dv r with
      | some (v, r2) =>
        match decodeKvsF dv n r2 with
        | some (kvs, r3) => some ((k, v) :: kvs, r3)
        | none => none
      | none => none
    | none => none

/-- Parse one CBOR item off the front of the input (the
`ciborium::de::from_reader` collaborator).  `fuel` bounds the nesting depth;
the top-level entry point supplies more fuel than any input can need, so the
fuel is a totality device, not an observable limit. -/
def decodeValue : Nat → List Nat → Option (Value × List Nat)
  | 0, _ => none
  | fuel + 1, bs =>
    match decodeHead bs with
    | none => none
    | some (m, a, rest) =>
      match m with
      | 0 => some (.int a, rest)
      | 1 => some (.int (-(a + 1 : Int)), rest)
      | 2 =>
        match readN a rest with
        | some (b, r) => some (.bytes b, r)
        | none => none
      | 3 =>
        match readN a rest with
        | some (t, r) => some (.text t, r)
        | none => none
      | 4 =>
        match decodeListF (decodeValue fuel) a rest with
        | some (vs, r) => some (.array vs, r)
        | none => none
      | 5 =>
        match decodeKvsF (decodeValue fuel) a rest with
        | some (kvs, r) => some (.map kvs, r)
        | none => none
      | 7 =>
        if a = 20 then some (.bool false, rest)
        else if a = 21 then some (.bool true, rest)
        else if a = 22 then some (.null, rest)
        else none
      | _ => none

/-- Parse one CBOR item from a buffer.  Each nesting level consumes at least
one head byte, so `bs.length + 3` fuel is never exhausted on an input the
reference parser would accept; trailing bytes are returned unread, as
`from_reader` leaves them. -/
def decodeCbor (bs : List Nat) : Option (Value × List Nat) :=
  decodeValue (bs.length + 3) bs

/-! ## Protocol constants and the frame codec (`src/lib.rs`) -/

/-- `APP_ID`: the fixed 15-byte application identifier
`*b"\xf0CoinkiteCARDv1"` (`0xf0` followed by the ASCII of "CoinkiteCARDv1"). -/
def APP_ID : List Nat :=
  [240, 67, 111, 105, 110, 107, 105, 116, 101, 67, 65, 82, 68, 118, 49]

/-- `SELECT_CLA_INS_P1P2`: the 4-byte header for applet selection. -/
def SELECT_CLA_INS_P1P2 : List Nat := [0, 164, 4, 0]

/-- `CBOR_CLA_INS_P1P2`: the 4-byte header for all CBOR-carrying commands. -/
def CBOR_CLA_INS_P1P2 : List Nat := [0, 203, 0, 0]

/-- `CARD_NONCE_SIZE`: required card nonce size in bytes. -/
def CARD_NONCE_SIZE : Nat := 16

/-- `USER_NONCE_SIZE`: required user nonce size in bytes. -/
def USER_NONCE_SIZE : Nat := 16

/-- The crate's unified error type (`enum Error`), without the
`pcsc`-feature-gated transport variant.  Strings are UTF-8 byte lists; the
`CkTap` card-error code is a `usize`. -/
inductive Error where
  | ciborDe (msg : String)
  | ciborValue (msg : String)
  | ckTap (error : List Nat) (code : Nat)
  deriving Repr, DecidableEq

/-- `build_apdu(header, command)`: concatenates the header, a single length
byte, and the command payload.  The source `assert!(command_len <= 255)` is a
process abort, modelled as `none`. -/
def build_apdu (header command : List Nat) : Option (List Nat) :=
  if command.length ≤ 255 then some (header ++ command.length :: command) else none

/-! ## Field names as UTF-8 byte lists -/

/-- UTF-8 bytes of "proto". -/
def kProto : List Nat := [112, 114, 111, 116, 111]

/-- UTF-8 bytes of "ver". -/
def kVer : List Nat := [118, 101, 114]

/-- UTF-8 bytes of "birth". -/
def kBirth : List Nat := [98, 105, 114, 116, 104]

/-- UTF-8 bytes of "slots". -/
def kSlots : List Nat := [115, 108, 111, 116, 115]

/-- UTF-8 bytes of "addr". -/
def kAddr : List Nat := [97, 100, 100, 114]

/-- UTF-8 bytes of "tapsigner". -/
def kTapsigner : List Nat := [116, 97, 112, 115, 105, 103, 110, 101, 114]

/-- UTF-8 bytes of "satschip". -/
def kSatschip : List Nat := [115, 97, 116, 115, 99, 104, 105, 112]

/-- UTF-8 bytes of "path". -/
def kPath : List Nat := [112, 97, 116, 104]

/-- UTF-8 bytes of "num_backups". -/
def kNumBackups : List Nat := [110, 117, 109, 95, 98, 97, 99, 107, 117, 112, 115]

/-- UTF-8 bytes of "pubkey". -/
def kPubkey : List Nat := [112, 117, 98, 107, 101, 121]

/-- UTF-8 bytes of "card_nonce". -/
def kCardNonce : List Nat := [99, 97, 114, 100, 95, 110, 111, 110, 99, 101]

/-- UTF-8 bytes of "testnet". -/
def kTestnet : List Nat := [116, 101, 115, 116, 110, 101, 116]

/-- UTF-8 bytes of "auth_delay". -/
def kAuthDelay : List Nat := [97, 117, 116, 104, 95, 100, 101, 108, 97, 121]

/-- UTF-8 bytes of "cmd". -/
def kCmd : List Nat := [99, 109, 100]

/-- UTF-8 bytes of "nonce". -/
def kNonce : List Nat := [110, 111, 110, 99, 101]

/-- UTF-8 bytes of "epubkey". -/
def kEpubkey : List Nat := [101, 112, 117, 98, 107, 101, 121]

/-- UTF-8 bytes of "xcvc". -/
def kXcvc : List Nat := [120, 99, 118, 99]

/-- UTF-8 bytes of "error". -/
def kError : List Nat := [101, 114, 114, 111, 114]

/-- UTF-8 bytes of "code". -/
def kCode : List Nat := [99, 111, 100, 101]

/-- UTF-8 bytes of "success". -/
def kSuccess : List Nat := [115, 117, 99, 99, 101, 115, 115]

/-- UTF-8 bytes of "status". -/
def sStatus : List Nat := [115, 116, 97, 116, 117, 115]

/-- UTF-8 bytes of "read". -/
def sRead : List Nat := [114, 101, 97, 100]

/-- UTF-8 bytes of "wait". -/
def sWait : List Nat := [119, 97, 105, 116]

/-! ## Struct deserialization from CBOR values (derived `Deserialize`) -/

/-- Whether a map key is the text item with the given UTF-8 bytes. -/
def valueKeyIs (v : Value) (k : List Nat) : Bool :=
  match v with
  | .text t => t = k
  | _ => false

/-- Look a field up in a CBOR map by its text key, first occurrence first, as
the derived deserializer matches field identifiers; non-text keys never
match a field name. -/
def lookupKey : List (Value × Value) → List Nat → Option Value
  | [], _ => none
  | (kk, v) :: rest, k => if valueKeyIs kk k then some v else lookupKey rest k

/-- Deserialize a `usize` field: a non-negative integer item. -/
def asNat : Value → Except String Nat
  | .int i => if i < 0 then .error "invalid type: negative integer" else .ok i.toNat
  | _ => .error "invalid type: expected integer"

/-- Deserialize a `String` field (kept as UTF-8 bytes): a text item. -/
def asText : Value → Except String (List Nat)
  | .text t => .ok t
  | _ => .error "invalid type: expected text"

/-- Deserialize a `serde_bytes` `Vec<u8>` field: a byte-string item. -/
def asBytes : Value → Except String (List Nat)
  | .bytes b => .ok b
  | _ => .error "invalid type: expected bytes"

/-- Deserialize a `bool` field. -/
def asBool : Value → Except String Bool
  | .bool b => .ok b
  | _ => .error "invalid type: expected bool"

/-- Deserialize the elements of a `Vec<usize>` field. -/
def asNatList : List Value → Except String (List Nat)
  | [] => .ok []
  | v :: vs => do
    let n ← asNat v
    let ns ← asNatList vs
    .ok (n :: ns)

/-- Deserialize a `Vec<usize>` (or non-`serde_bytes` `Vec<u8>`) field: an
array of integer items. -/
def asNatArray : Value → Except String (List Nat)
  | .array vs => asNatList vs
  | _ => .error "invalid type: expected array"

/-- Deserialize a required struct field: missing keys are an error. -/
def reqField (kvs : List (Value × Value)) (k : List Nat)
    (f : Value → Except String α) : Except String α :=
  match lookupKey kvs k with
  | none => .error "missing field"
  | some v => f v

/-- Whether a CBOR item is null. -/
def isNullV : Value → Bool
  | .null => true
  | _ => false

/-- Deserialize an `Option` struct field: a missing key or a null value is
`none`, anything else is parsed by `f`. -/
def optField (kvs : List (Value × Value)) (k : List Nat)
    (f : Value → Except String α) : Except String (Option α) :=
  match lookupKey kvs k with
  | none => .ok none
  | some v => if isNullV v then .ok none else (f v).map some

/-- `ErrorResponse { error: String, code: usize }`. -/
structure ErrorResponse where
  error : List Nat
  code : Nat
  deriving Repr, DecidableEq

/-- Derived `Deserialize` for `ErrorResponse` applied to a CBOR value:
requires a map with text fields `error` and `code`; unknown entries are
ignored. -/
def deserErrorResponse : Value → Except String ErrorResponse
  | .map kvs => do
    let e ← reqField kvs kError asText
    let c ← reqField kvs kCode asNat
    .ok ⟨e, c⟩
  | _ => .error "invalid type: expected map"

/-- `StatusResponse` (`src/lib.rs`): `pubkey` and `card_nonce` are
`serde_bytes` byte strings, `slots`/`path` are integer arrays, `ver`/`addr`
are text. -/
structure StatusResponse where
  proto : Nat
  ver : List Nat
  birth : Nat
  slots : Option (List Nat)
  addr : Option (List Nat)
  tapsigner : Option Bool
  satschip : Option Bool
  path : Option (List Nat)
  num_backups : Option Nat
  pubkey : List Nat
  card_nonce : List Nat
  testnet : Option Bool
  auth_delay : Option Nat
  deriving Repr, DecidableEq

/-- Derived `Deserialize` for `StatusResponse` applied to a CBOR value. -/
def deserStatusResponse : Value → Except String StatusResponse
  | .map kvs => do
    let proto ← reqField kvs kProto asNat
    let ver ← reqField kvs kVer asText
    let birth ← reqField kvs kBirth asNat
    let slots ← optField kvs kSlots asNatArray
    let addr ← optField kvs kAddr asText
    let tapsigner ← optField kvs kTapsigner asBool
    let satschip ← optField kvs kSatschip asBool
    let path ← optField kvs kPath asNatArray
    let num_backups ← optField kvs kNumBackups asNat
    let pubkey ← reqField kvs kPubkey asBytes
    let card_nonce ← reqField kvs kCardNonce asBytes
    let testnet ← optField kvs kTestnet asBool
    let auth_delay ← optField kvs kAuthDelay asNat
    .ok ⟨proto, ver, birth, slots, addr, tapsigner, satschip, path, num_backups,
         pubkey, card_nonce, testnet, auth_delay⟩
  | _ => .error "invalid type: expected map"

/-- `WaitResponse { success: bool, auth_delay: usize }`. -/
structure WaitResponse where
  success : Bool
  auth_delay : Nat
  deriving Repr, DecidableEq

/-- Derived `Deserialize` for `WaitResponse` applied to a CBOR value. -/
def deserWaitResponse : Value → Except String WaitResponse
  | .map kvs => do
    let s ← reqField kvs kSuccess asBool
    let d ← reqField kvs kAuthDelay asNat
    .ok ⟨s, d⟩
  | _ => .error "invalid type: expected map"

/-- `ResponseApdu::from_cbor` (`src/lib.rs` lines 65–81): parse the buffer as
a CBOR value (failure is a `CiborDe` decode error); if the value deserializes
as an `ErrorResponse`, return `Error::CkTap` carrying its fields; otherwise
deserialize the expected type `T` (given by `deserT`), any failure again a
`CiborDe` error. -/
def from_cbor (deserT : Value → Except String α) (cbor : List Nat) : Except Error α :=
  match decodeCbor cbor with
  | none => .error (.ciborDe "deserialization failure")
  | some (v, _) =>
    match deserErrorResponse v with
    | .ok e => .error (.ckTap e.error e.code)
    | .error _ =>
      match deserT v with
      | .ok t => .ok t
      | .error m => .error (.ciborDe m)

/-! ## Commands and their serialization (derived `Serialize` + `CommandApdu`) -/

/-- `AppletSelect {}`. -/
structure AppletSelect where
  deriving Repr, DecidableEq

/-- `StatusCommand { cmd: String }`. -/
structure StatusCommand where
  cmd : List Nat
  deriving Repr, DecidableEq

/-- `StatusCommand::default()`: `cmd = "status"`. -/
def StatusCommand.default : StatusCommand := ⟨sStatus⟩

/-- `ReadCommand { cmd, nonce: Vec<u8>, epubkey: Option<Vec<u8>>, xcvc: Option<Vec<u8>> }`. -/
structure ReadCommand where
  cmd : List Nat
  nonce : List Nat
  epubkey : Option (List Nat)
  xcvc : Option (List Nat)
  deriving Repr, DecidableEq

/-- `WaitCommand { cmd, epubkey: Option<Vec<u8>>, xcvc: Option<Vec<u8>> }`. -/
structure WaitCommand where
  cmd : List Nat
  epubkey : Option (List Nat)
  xcvc : Option (List Nat)
  deriving Repr, DecidableEq

/-- `WaitCommand::new(epubkey, xcvc)`: sets `cmd = "wait"`. -/
def WaitCommand.new (epubkey xcvc : Option (List Nat)) : WaitCommand :=
  ⟨sWait, epubkey, xcvc⟩

/-- A `Vec<u8>` without `serde_bytes` serializes as a CBOR array of
integers. -/
def byteArrayValue (b : List Nat) : Value :=
  .array (b.map fun n : Nat => .int n)

/-- An `Option<Vec<u8>>` field serializes as null when `None` and as the
inner array when `Some` (derived `Serialize` keeps the field). -/
def optByteArrayValue : Option (List Nat) → Value
  | none => .null
  | some b => byteArrayValue b

/-- Derived `Serialize` for `StatusCommand`: a one-entry map. -/
def statusCommandToValue (c : StatusCommand) : Value :=
  .map [(.text kCmd, .text c.cmd)]

/-- Derived `Serialize` for `ReadCommand`: a map in field order. -/
def readCommandToValue (c : ReadCommand) : Value :=
  .map [(.text kCmd, .text c.cmd), (.text kNonce, byteArrayValue c.nonce),
        (.text kEpubkey, optByteArrayValue c.epubkey),
        (.text kXcvc, optByteArrayValue c.xcvc)]

/-- Derived `Serialize` for `WaitCommand`: a map in field order. -/
def waitCommandToValue (c : WaitCommand) : Value :=
  .map [(.text kCmd, .text c.cmd), (.text kEpubkey, optByteArrayValue c.epubkey),
        (.text kXcvc, optByteArrayValue c.xcvc)]

/-- The default `CommandApdu::apdu_bytes`: CBOR-serialize the command and
frame it under the CBOR header. -/
def cborApduBytes (v : Value) : Option (List Nat) :=
  build_apdu CBOR_CLA_INS_P1P2 (encodeValue v)

/-- `AppletSelect::apdu_bytes` (the one override): the SELECT header with the
raw application identifier as payload, no CBOR encoding. -/
def AppletSelect.apdu_bytes (_ : AppletSelect) : Option (List Nat) :=
  build_apdu SELECT_CLA_INS_P1P2 APP_ID

/-- `StatusCommand`'s inherited `apdu_bytes`. -/
def StatusCommand.apdu_bytes (c : StatusCommand) : Option (List Nat) :=
  cborApduBytes (statusCommandToValue c)

/-- `ReadCommand`'s inherited `apdu_bytes`. -/
def ReadCommand.apdu_bytes (c : ReadCommand) : Option (List Nat) :=
  cborApduBytes (readCommandToValue c)

/-- `WaitCommand`'s inherited `apdu_bytes`. -/
def WaitCommand.apdu_bytes (c : WaitCommand) : Option (List Nat) :=
  cborApduBytes (waitCommandToValue c)

/-! ## Card session state machine

The `CkTapCard` session methods (`wait`, `init`) live outside `src/`; only
their caller (`examples/pcsc.rs`) and the response types are in the sources.
The definitions below are therefore modelled from the spec (§4.4, §7). -/

/-- Modelled from the spec: the session-level error taxonomy entry for
caller-side misuse (`ProtocolInvariantViolation`), rejected before any
transport exchange. -/
inductive SessionError where
  | protocolInvariantViolation
  deriving Repr, DecidableEq

/-- Modelled from the spec: per-card session state as `examples/pcsc.rs`
reads it — the remaining `auth_delay` (absent when the card is not
rate-limiting) and the initialization indicator (presence of a derivation
path, from the status exchange). -/
structure TapSignerSession where
  auth_delay : Option Nat
  path : Option (List Nat)
  deriving Repr, DecidableEq

/-- Modelled from the spec: a positive `auth_delay` reported by status puts
the session in the throttled state; zero delay means the field is absent
(`status` returns `auth_delay` only with a positive value). -/
def initialAuthDelay (n : Nat) : Option Nat :=
  if n = 0 then none else some n

/-- Modelled from the spec: one `wait` exchange returns a remaining delay;
the session stores it, clearing the field (Ready) when it reaches zero. -/
def applyWaitResponse (d : Nat) : Option Nat :=
  if d = 0 then none else some d

/-- Modelled from the spec: the `examples/pcsc.rs` wait loop
`while card.auth_delay.is_some() { card.wait(None)?; }`.  `f i` is the
`auth_delay` of the response to the `i`-th wait command (0-based); `fuel`
bounds the iterations (a totality device); the result is the total number of
wait commands issued together with the final `auth_delay` field. -/
def waitLoop (f : Nat → Nat) : Nat → Nat → Option Nat → Nat × Option Nat
  | 0, calls, d => (calls, d)
  | _ + 1, calls, none => (calls, none)
  | fuel + 1, calls, some _ => waitLoop f fuel (calls + 1) (applyWaitResponse (f calls))

/-- Modelled from the spec: the one-time initialization transition.  When the
status exchange has reported the derivation-path indicator present, the call
is refused with `ProtocolInvariantViolation` before any transport exchange;
otherwise one exchange runs and the indicator becomes present.  The second
component counts transport exchanges performed. -/
def initCard (s : TapSignerSession) (chain_code : List Nat) :
    Except SessionError TapSignerSession × Nat :=
  if s.path.isSome then (.error .protocolInvariantViolation, 0)
  else (.ok { s with path := some chain_code }, 1)

/-! ## Well-formedness bounds

CBOR heads carry a `u64` argument; Rust `usize` values and `Vec` lengths are
below `2^64` by construction, which the `Nat`-valued model states
explicitly where a round-trip depends on it. -/

/-- `2^64`, the bound of Rust's 64-bit `usize` and of a CBOR head argument. -/
def U64 : Nat := 18446744073709551616

/-- The `Nat`s and list lengths of a `StatusResponse` fit in `usize`, as any
value held by the Rust struct does. -/
def StatusResponse.wf (r : StatusResponse) : Prop :=
  r.proto < U64 ∧ r.birth < U64 ∧ r.ver.length < U64 ∧
  r.pubkey.length < U64 ∧ r.card_nonce.length < U64 ∧
  (∀ xs, r.slots = some xs → xs.length < U64 ∧ ∀ x ∈ xs, x < U64) ∧
  (∀ a, r.addr = some a → a.length < U64) ∧
  (∀ xs, r.path = some xs → xs.length < U64 ∧ ∀ x ∈ xs, x < U64) ∧
  (∀ n, r.num_backups = some n → n < U64) ∧
  (∀ n, r.auth_delay = some n → n < U64)

instance (r : StatusResponse) : Decidable r.wf := by
  unfold StatusResponse.wf
  exact inferInstance

/-! ## Response serialization (the shape `from_cbor` expects back)

A `StatusResponse`-shaped reply map, as §6 of the spec describes the wire
format: required fields always present, optional fields omitted (not null)
when absent, `pubkey`/`card_nonce` as byte strings, `slots`/`path` as
integer arrays. -/

/-- A map entry for an optional response field: omitted when absent. -/
def optEntry (k : List Nat) (f : α → Value) : Option α → List (Value × Value)
  | none => []
  | some x => [(.text k, f x)]

/-- A `usize` response field as a CBOR integer. -/
def natValue (n : Nat) : Value := .int n

/-- A `bool` response field as a CBOR boolean. -/
def boolValue (b : Bool) : Value := .bool b

/-- The entries of a `StatusResponse`-shaped reply map, in field order. -/
def statusKvs (r : StatusResponse) : List (Value × Value) :=
  (.text kProto, natValue r.proto) :: (.text kVer, .text r.ver) ::
  (.text kBirth, natValue r.birth) ::
  (optEntry kSlots byteArrayValue r.slots ++
  (optEntry kAddr Value.text r.addr ++
  (optEntry kTapsigner boolValue r.tapsigner ++
  (optEntry kSatschip boolValue r.satschip ++
  (optEntry kPath byteArrayValue r.path ++
  (optEntry kNumBackups natValue r.num_backups ++
  ((.text kPubkey, Value.bytes r.pubkey) :: (.text kCardNonce, Value.bytes r.card_nonce) ::
  (optEntry kTestnet boolValue r.testnet ++
  optEntry kAuthDelay natValue r.auth_delay))))))))

/-- The `StatusResponse`-shaped reply map itself. -/
def statusResponseToValue (r : StatusResponse) : Value :=
  .map (statusKvs r)

/-! ## Round-trip lemmas for the CBOR codec -/

theorem decodeHead_encodeHead (m n : Nat) (hn : n < U64) (r : List Nat) :
    decodeHead (encodeHead m n ++ r) = some (m, n, r) := by
  have hn' : n < 18446744073709551616 := hn
  unfold encodeHead
  by_cases h1 : n < 24
  · simp only [if_pos h1, List.cons_append, List.nil_append, decodeHead]
    have hb1 : (32 * m + n) / 32 = m := by omega
    have hb2 : (32 * m + n) % 32 = n := by omega
    simp [hb1, hb2, h1]
  · by_cases h2 : n < 256
    · simp only [if_neg h1, if_pos h2, List.cons_append, List.nil_append, decodeHead]
      have hb1 : (32 * m + 24) / 32 = m := by omega
      have hb2 : (32 * m + 24) % 32 = 24 := by omega
      simp [hb1, hb2]
    · by_cases h3 : n < 65536
      · simp only [if_neg h1, if_neg h2, if_pos h3, List.cons_append, List.nil_append,
          decodeHead]
        have hb1 : (32 * m + 25) / 32 = m := by omega
        have hb2 : (32 * m + 25) % 32 = 25 := by omega
        simp only [hb1, hb2]
        norm_num
        omega
      · by_cases h4 : n < 4294967296
        · simp only [if_neg h1, if_neg h2, if_neg h3, if_pos h4, List.cons_append,
            List.nil_append, decodeHead]
          have hb1 : (32 * m + 26) / 32 = m := by omega
          have hb2 : (32 * m + 26) % 32 = 26 := by omega
          simp only [hb1, hb2]
          norm_num
          omega
        · simp only [if_neg h1, if_neg h2, if_neg h3, if_neg h4, List.cons_append,
            List.nil_append, decodeHead]
          have hb1 : (32 * m + 27) / 32 = m := by omega
          have hb2 : (32 * m + 27) % 32 = 27 := by omega
          simp only [hb1, hb2]
          norm_num
          omega

theorem readN_append (b r : List Nat) : readN b.length (b ++ r) = some (b, r) := by
  induction b with
  | nil => rfl
  | cons x xs ih => simp [readN, ih]

/-- One unfolding step of `decodeValue`, keeping the recursive occurrence
folded. -/
theorem decodeValue_succ (fuel : Nat) (bs : List Nat) :
    decodeValue (fuel + 1) bs =
      match decodeHead bs with
      | none => none
      | some (m, a, rest) =>
        match m with
        | 0 => some (.int a, rest)
        | 1 => some (.int (-(a + 1 : Int)), rest)
        | 2 =>
          match readN a rest with
          | some (b, r) => some (.bytes b, r)
          | none => none
        | 3 =>
          match readN a rest with
          | some (t, r) => some (.text t, r)
          | none => none
        | 4 =>
          match decodeListF (decodeValue fuel) a rest with
          | some (vs, r) => some (.array vs, r)
          | none => none
        | 5 =>
          match decodeKvsF (decodeValue fuel) a rest with
          | some (kvs, r) => some (.map kvs, r)
          | none => none
        | 7 =>
          if a = 20 then some (.bool false, rest)
          else if a = 21 then some (.bool true, rest)
          else if a = 22 then some (.null, rest)
          else none
        | _ => none := rfl

/-- CBOR items that are flat (no nesting) and fit their heads in a `u64`. -/
inductive LeafV : Value → Prop
  | int (n : Nat) (h : n < U64) : LeafV (.int n)
  | bytes (b : List Nat) (h : b.length < U64) : LeafV (.bytes b)
  | text (t : List Nat) (h : t.length < U64) : LeafV (.text t)
  | bool (b : Bool) : LeafV (.bool b)
  | null : LeafV .null

theorem decodeValue_leaf (v : Value) (hv : LeafV v) (fuel : Nat) (r : List Nat) :
    decodeValue (fuel + 1) (encodeValue v ++ r) = some (v, r) := by
  cases hv with
  | int n h =>
    have h0 : (0 : Int) ≤ (n : Int) := Int.natCast_nonneg n
    simp only [encodeValue, if_pos h0, Int.toNat_natCast, decodeValue,
      decodeHead_encodeHead 0 n h r]
  | bytes b h =>
    simp only [encodeValue, List.append_assoc, decodeValue,
      decodeHead_encodeHead 2 b.length h (b ++ r), readN_append]
  | text t h =>
    simp only [encodeValue, List.append_assoc, decodeValue,
      decodeHead_encodeHead 3 t.length h (t ++ r), readN_append]
  | bool b => cases b <;> simp [encodeValue, decodeValue, decodeHead]
  | null => simp [encodeValue, decodeValue, decodeHead]

theorem decodeList_leaf (fuel : Nat) (vs : List Value) (h : ∀ v ∈ vs, LeafV v)
    (r : List Nat) :
    decodeListF (decodeValue (fuel + 1)) vs.length (encodeList vs ++ r) = some (vs, r) := by
  induction vs generalizing r with
  | nil => simp [decodeListF, encodeList]
  | cons v vs ih =>
    have hv : LeafV v := h v (List.mem_cons_self v vs)
    have hvs : ∀ w ∈ vs, LeafV w := fun w hw => h w (List.mem_cons_of_mem v hw)
    simp only [encodeList, List.append_assoc, List.length_cons, decodeListF,
      decodeValue_leaf v hv fuel, ih hvs]

/-- CBOR items of nesting depth at most two: a leaf, or an array of leaves. -/
inductive ShallowV : Value → Prop
  | leaf (v : Value) (h : LeafV v) : ShallowV v
  | array (vs : List Value) (hl : vs.length < U64) (h : ∀ v ∈ vs, LeafV v) :
      ShallowV (.array vs)

theorem decodeValue_shallow (v : Value) (hv : ShallowV v) (fuel : Nat) (r : List Nat) :
    decodeValue (fuel + 2) (encodeValue v ++ r) = some (v, r) := by
  cases hv with
  | leaf v h => exact decodeValue_leaf v h (fuel + 1) r
  | array vs hl h =>
    simp only [encodeValue, List.append_assoc]
    rw [show fuel + 2 = fuel + 1 + 1 from rfl, decodeValue_succ,
      decodeHead_encodeHead 4 vs.length hl _]
    simp only [decodeList_leaf fuel vs h r]

/-- A well-formed map entry: a leaf key and a shallow value. -/
def KvWf (p : Value × Value) : Prop := LeafV p.1 ∧ ShallowV p.2

theorem decodeKvs_shallow (fuel : Nat) (kvs : List (Value × Value))
    (h : ∀ p ∈ kvs, KvWf p) (r : List Nat) :
    decodeKvsF (decodeValue (fuel + 2)) kvs.length (encodeKvs kvs ++ r) = some (kvs, r) := by
  induction kvs generalizing r with
  | nil => simp [decodeKvsF, encodeKvs]
  | cons p kvs ih =>
    obtain ⟨k, v⟩ := p
    have hp : KvWf (k, v) := h (k, v) (List.mem_cons_self _ kvs)
    have hkvs : ∀ q ∈ kvs, KvWf q := fun q hq => h q (List.mem_cons_of_mem _ hq)
    have hk : decodeValue (fuel + 2) (encodeValue k ++ (encodeValue v ++ (encodeKvs kvs ++ r)))
        = some (k, encodeValue v ++ (encodeKvs kvs ++ r)) :=
      decodeValue_leaf k hp.1 (fuel + 1) _
    simp only [encodeKvs, List.append_assoc, List.length_cons, decodeKvsF, hk,
      decodeValue_shallow v hp.2 fuel, ih hkvs]

theorem decodeValue_map (kvs : List (Value × Value)) (hl : kvs.length < U64)
    (h : ∀ p ∈ kvs, KvWf p) (fuel : Nat) (r : List Nat) :
    decodeValue (fuel + 3) (encodeValue (.map kvs) ++ r) = some (.map kvs, r) := by
  simp only [encodeValue, List.append_assoc]
  rw [show fuel + 3 = fuel + 2 + 1 from rfl, decodeValue_succ,
    decodeHead_encodeHead 5 kvs.length hl _]
  simp only [decodeKvs_shallow fuel kvs h r]

theorem decodeCbor_map (kvs : List (Value × Value)) (hl : kvs.length < U64)
    (h : ∀ p ∈ kvs, KvWf p) :
    decodeCbor (encodeValue (.map kvs)) = some (.map kvs, []) := by
  have := decodeValue_map kvs hl h (encodeValue (.map kvs)).length []
  simpa [decodeCbor] using this

/-! ## Evaluation lemmas for struct deserialization -/

theorem exceptBind_ok (a : α) (g : α → Except ε β) :
    (Except.ok a : Except ε α) >>= g = g a := rfl

theorem exceptBind_error (e : ε) (g : α → Except ε β) :
    (Except.error e : Except ε α) >>= g = .error e := rfl

@[simp] theorem asNat_intNat (n : Nat) : asNat (.int (n : Int)) = .ok n := by
  simp only [asNat]
  rw [if_neg (by omega : ¬ ((n : Int) < 0))]
  simp

@[simp] theorem asText_text (t : List Nat) : asText (.text t) = .ok t := rfl

@[simp] theorem asBytes_bytes (b : List Nat) : asBytes (.bytes b) = .ok b := rfl

@[simp] theorem asBool_bool (b : Bool) : asBool (.bool b) = .ok b := rfl

@[simp] theorem asNatList_intMap (xs : List Nat) :
    asNatList (xs.map fun n : Nat => Value.int n) = .ok xs := by
  induction xs with
  | nil => rfl
  | cons x xs ih => simp [asNatList, ih, exceptBind_ok, asNat_intNat]

@[simp] theorem asNatArray_byteArrayValue (xs : List Nat) :
    asNatArray (byteArrayValue xs) = .ok xs := by
  simp [asNatArray, byteArrayValue]

@[simp] theorem isNullV_byteArrayValue (xs : List Nat) :
    isNullV (byteArrayValue xs) = false := rfl

@[simp] theorem isNullV_int (i : Int) : isNullV (.int i) = false := rfl

@[simp] theorem isNullV_text (t : List Nat) : isNullV (.text t) = false := rfl

@[simp] theorem isNullV_bool (b : Bool) : isNullV (.bool b) = false := rfl

theorem lookupKey_nil (k : List Nat) : lookupKey [] k = none := rfl

@[simp] theorem lookupKey_textcons_ne (k' k : List Nat) (h : k' ≠ k) (v : Value)
    (rest : List (Value × Value)) :
    lookupKey ((Value.text k', v) :: rest) k = lookupKey rest k := by
  simp [lookupKey, valueKeyIs, h]

@[simp] theorem lookupKey_optEntry_ne (k' k : List Nat) (h : k' ≠ k) (f : α → Value)
    (x : Option α) (rest : List (Value × Value)) :
    lookupKey (optEntry k' f x ++ rest) k = lookupKey rest k := by
  cases x <;> simp [optEntry, lookupKey, valueKeyIs, h]

@[simp] theorem lookupKey_optEntry_ne_last (k' k : List Nat) (h : k' ≠ k) (f : α → Value)
    (x : Option α) :
    lookupKey (optEntry k' f x) k = none := by
  cases x <;> simp [optEntry, lookupKey, valueKeyIs, h]

@[simp] theorem reqField_here (k : List Nat) (v : Value) (rest : List (Value × Value))
    (g : Value → Except String α) :
    reqField ((Value.text k, v) :: rest) k g = g v := by
  simp [reqField, lookupKey, valueKeyIs]

@[simp] theorem reqField_textcons_ne (k' k : List Nat) (h : k' ≠ k) (v : Value)
    (rest : List (Value × Value)) (g : Value → Except String α) :
    reqField ((Value.text k', v) :: rest) k g = reqField rest k g := by
  simp [reqField, lookupKey, valueKeyIs, h]

@[simp] theorem reqField_optEntry_ne (k' k : List Nat) (h : k' ≠ k) (f : α → Value)
    (x : Option α) (rest : List (Value × Value)) (g : Value → Except String β) :
    reqField (optEntry k' f x ++ rest) k g = reqField rest k g := by
  cases x <;> simp [optEntry, reqField, lookupKey, valueKeyIs, h]

theorem reqField_nil (k : List Nat) (g : Value → Except String α) :
    reqField [] k g = .error "missing field" := rfl

@[simp] theorem reqField_optEntry_ne_last (k' k : List Nat) (h : k' ≠ k) (f : α → Value)
    (x : Option α) (g : Value → Except String β) :
    reqField (optEntry k' f x) k g = .error "missing field" := by
  cases x <;> simp [optEntry, reqField, lookupKey, valueKeyIs, h]

@[simp] theorem optField_textcons_ne (k' k : List Nat) (h : k' ≠ k) (v : Value)
    (rest : List (Value × Value)) (g : Value → Except String α) :
    optField ((Value.text k', v) :: rest) k g = optField rest k g := by
  simp [optField, lookupKey, valueKeyIs, h]

@[simp] theorem optField_optEntry_ne (k' k : List Nat) (h : k' ≠ k) (f : α → Value)
    (x : Option α) (rest : List (Value × Value)) (g : Value → Except String β) :
    optField (optEntry k' f x ++ rest) k g = optField rest k g := by
  cases x <;> simp [optEntry, optField, lookupKey, valueKeyIs, h]

@[simp] theorem optField_optEntry_self (k : List Nat) (f : α → Value)
    (g : Value → Except String α) (x : Option α) (rest : List (Value × Value))
    (hg : ∀ a, g (f a) = .ok a) (hnn : ∀ a, isNullV (f a) = false)
    (hrest : lookupKey rest k = none) :
    optField (optEntry k f x ++ rest) k g = .ok x := by
  cases x with
  | none => simp [optEntry, optField, hrest]
  | some a => simp [optEntry, optField, lookupKey, valueKeyIs, hnn a, hg a, Except.map]

@[simp] theorem optField_optEntry_last (k : List Nat) (f : α → Value)
    (g : Value → Except String α) (x : Option α)
    (hg : ∀ a, g (f a) = .ok a) (hnn : ∀ a, isNullV (f a) = false) :
    optField (optEntry k f x) k g = .ok x := by
  cases x with
  | none => simp [optEntry, optField, lookupKey]
  | some a => simp [optEntry, optField, lookupKey, valueKeyIs, hnn a, hg a, Except.map]

/-- Deserializing a `StatusResponse`-shaped reply map recovers the record
field for field; omitted optional fields come back as `none`. -/
theorem deserStatusResponse_toValue (r : StatusResponse) :
    deserStatusResponse (statusResponseToValue r) = .ok r := by
  simp only [statusResponseToValue, statusKvs, deserStatusResponse]
  simp only [kProto, kVer, kBirth, kSlots, kAddr, kTapsigner, kSatschip, kPath,
    kNumBackups, kPubkey, kCardNonce, kTestnet, kAuthDelay]
  simp [exceptBind_ok, natValue, boolValue, lookupKey_nil, reqField_nil,
    asNat_intNat]

/-- A `StatusResponse`-shaped reply map does not deserialize as an
`ErrorResponse`: it has no `error` field. -/
theorem deserErrorResponse_statusValue (r : StatusResponse) :
    deserErrorResponse (statusResponseToValue r) = .error "missing field" := by
  simp only [statusResponseToValue, statusKvs, deserErrorResponse]
  simp only [kProto, kVer, kBirth, kSlots, kAddr, kTapsigner, kSatschip, kPath,
    kNumBackups, kPubkey, kCardNonce, kTestnet, kAuthDelay, kError]
  simp [exceptBind_error, lookupKey_nil, reqField_nil]

/-! ## Well-formedness of the status reply map -/

theorem optEntry_length_le (k : List Nat) (f : α → Value) (x : Option α) :
    (optEntry k f x).length ≤ 1 := by
  cases x <;> simp [optEntry]

theorem statusKvs_length_lt (r : StatusResponse) : (statusKvs r).length < U64 := by
  have h1 := optEntry_length_le kSlots byteArrayValue r.slots
  have h2 := optEntry_length_le kAddr Value.text r.addr
  have h3 := optEntry_length_le kTapsigner boolValue r.tapsigner
  have h4 := optEntry_length_le kSatschip boolValue r.satschip
  have h5 := optEntry_length_le kPath byteArrayValue r.path
  have h6 := optEntry_length_le kNumBackups natValue r.num_backups
  have h7 := optEntry_length_le kTestnet boolValue r.testnet
  have h8 := optEntry_length_le kAuthDelay natValue r.auth_delay
  have hU : (13 : Nat) < U64 := by decide
  simp only [statusKvs, List.length_cons, List.length_append] at h1 h2 h3 h4 h5 h6 h7 h8 ⊢
  omega

theorem mem_optEntry (p : Value × Value) (k : List Nat) (f : α → Value) (x : Option α)
    (hp : p ∈ optEntry k f x) : ∃ a, x = some a ∧ p = (.text k, f a) := by
  cases x with
  | none => simp [optEntry] at hp
  | some a =>
    simp [optEntry] at hp
    exact ⟨a, rfl, hp⟩

theorem shallow_byteArrayValue (xs : List Nat) (hlen : xs.length < U64)
    (hx : ∀ x ∈ xs, x < U64) : ShallowV (byteArrayValue xs) := by
  apply ShallowV.array
  · simpa [byteArrayValue] using hlen
  · intro v hv
    simp only [byteArrayValue, List.mem_map] at hv
    obtain ⟨x, hx', rfl⟩ := hv
    exact .int x (hx x hx')

theorem statusKvs_kvWf (r : StatusResponse) (h : r.wf) : ∀ p ∈ statusKvs r, KvWf p := by
  obtain ⟨h1, h2, h3, h4, h5, h6, h7, h8, h9, h10⟩ := h
  intro p hp
  simp only [statusKvs, List.mem_cons, List.mem_append] at hp
  rcases hp with rfl | rfl | rfl | hp | hp | hp | hp | hp | hp | rfl | rfl | hp | hp
  · exact ⟨.text kProto (by decide), .leaf _ (.int r.proto h1)⟩
  · exact ⟨.text kVer (by decide), .leaf _ (.text r.ver h3)⟩
  · exact ⟨.text kBirth (by decide), .leaf _ (.int r.birth h2)⟩
  · obtain ⟨a, hx, rfl⟩ := mem_optEntry _ _ _ _ hp
    exact ⟨.text kSlots (by decide),
      shallow_byteArrayValue a (h6 a hx).1 (h6 a hx).2⟩
  · obtain ⟨a, hx, rfl⟩ := mem_optEntry _ _ _ _ hp
    exact ⟨.text kAddr (by decide), .leaf _ (.text a (h7 a hx))⟩
  · obtain ⟨a, hx, rfl⟩ := mem_optEntry _ _ _ _ hp
    exact ⟨.text kTapsigner (by decide), .leaf _ (.bool a)⟩
  · obtain ⟨a, hx, rfl⟩ := mem_optEntry _ _ _ _ hp
    exact ⟨.text kSatschip (by decide), .leaf _ (.bool a)⟩
  · obtain ⟨a, hx, rfl⟩ := mem_optEntry _ _ _ _ hp
    exact ⟨.text kPath (by decide),
      shallow_byteArrayValue a (h8 a hx).1 (h8 a hx).2⟩
  · obtain ⟨a, hx, rfl⟩ := mem_optEntry _ _ _ _ hp
    exact ⟨.text kNumBackups (by decide), .leaf _ (.int a (h9 a hx))⟩
  · exact ⟨.text kPubkey (by decide), .leaf _ (.bytes r.pubkey h4)⟩
  · exact ⟨.text kCardNonce (by decide), .leaf _ (.bytes r.card_nonce h5)⟩
  · obtain ⟨a, hx, rfl⟩ := mem_optEntry _ _ _ _ hp
    exact ⟨.text kTestnet (by decide), .leaf _ (.bool a)⟩
  · obtain ⟨a, hx, rfl⟩ := mem_optEntry _ _ _ _ hp
    exact ⟨.text kAuthDelay (by decide), .leaf _ (.int a (h10 a hx))⟩

/-- End to end: a well-formed `StatusResponse`-shaped reply map, put on the
wire as CBOR bytes, comes back through `from_cbor` as exactly the record it
was built from. -/
theorem from_cbor_statusValue (r : StatusResponse) (h : r.wf) :
    from_cbor deserStatusResponse (encodeValue (statusResponseToValue r)) = .ok r := by
  unfold from_cbor
  rw [show statusResponseToValue r = Value.map (statusKvs r) from rfl,
    decodeCbor_map (statusKvs r) (statusKvs_length_lt r) (statusKvs_kvWf r h)]
  simp only [show Value.map (statusKvs r) = statusResponseToValue r from rfl,
    deserErrorResponse_statusValue r, deserStatusResponse_toValue r]

/-! ## Wait-loop lemmas -/

theorem waitLoop_none (f : Nat → Nat) (fuel c : Nat) :
    waitLoop f fuel c none = (c, none) := by
  cases fuel <;> rfl

theorem waitLoop_exact (N : Nat) : ∀ (f : Nat → Nat) (fuel calls : Nat),
    1 ≤ N → N ≤ fuel → (∀ i, i < N → f (calls + i) = N - 1 - i) →
    waitLoop f fuel calls (some N) = (calls + N, none) := by
  induction N with
  | zero => intro f fuel calls h; exact absurd h (by omega)
  | succ n ih =>
    intro f fuel calls _ hfuel hf
    obtain ⟨fu, rfl⟩ : ∃ fu, fuel = fu + 1 := ⟨fuel - 1, by omega⟩
    have hf0 : f calls = n := by
      have h := hf 0 (by omega)
      simpa using h
    rw [show waitLoop f (fu + 1) calls (some (n + 1)) =
      waitLoop f fu (calls + 1) (applyWaitResponse (f calls)) from rfl, hf0]
    cases n with
    | zero => rw [show applyWaitResponse 0 = none from rfl, waitLoop_none]
    | succ m =>
      rw [show applyWaitResponse (m + 1) = some (m + 1) from by simp [applyWaitResponse]]
      have hf2 : ∀ i, i < m + 1 → f (calls + 1 + i) = (m + 1) - 1 - i := by
        intro i hi
        have h2 := hf (i + 1) (by omega)
        rw [show calls + (i + 1) = calls + 1 + i from by omega] at h2
        rw [h2]
        omega
      rw [ih f fu (calls + 1) (by omega) (by omega) hf2]
      simp only [Prod.mk.injEq]
      exact ⟨by omega, trivial⟩

/-- A successful `cborApduBytes` frame is exactly the CBOR header, the
payload length byte, and the CBOR payload. -/
theorem cborApduBytes_some (v : Value) (frame : List Nat)
    (h : cborApduBytes v = some frame) :
    frame = CBOR_CLA_INS_P1P2 ++ (encodeValue v).length :: encodeValue v := by
  unfold cborApduBytes build_apdu at h
  by_cases hlen : (encodeValue v).length ≤ 255
  · rw [if_pos hlen] at h
    exact (Option.some_inj.mp h).symm
  · rw [if_neg hlen] at h
    cases h

/-! ## Claims -/

/-- C1: for every expected response type `T` (represented by its
deserializer) and every input byte buffer that parses as CBOR and whose
parsed value can be interpreted as an error map `{error, code}`, `from_cbor`
returns the card-error result `Error::CkTap` carrying that error string and
code verbatim, and never returns a successful `T` — even if the buffer would
also structurally satisfy `T`'s shape. -/
theorem claim_C1_error_precedence {α : Type} (deserT : Value → Except String α)
    (bytes : List Nat) (v : Value) (rest : List Nat) (e : ErrorResponse)
    (hparse : decodeCbor bytes = some (v, rest))
    (herr : deserErrorResponse v = .ok e) :
    from_cbor deserT bytes = .error (.ckTap e.error e.code) ∧
    ∀ t : α, from_cbor deserT bytes ≠ .ok t := by
  have hmain : from_cbor deserT bytes = .error (.ckTap e.error e.code) := by
    unfold from_cbor
    rw [hparse]
    simp only [herr]
  refine ⟨hmain, fun t ht => ?_⟩
  rw [hmain] at ht
  cases ht

/-- An error map that also carries `StatusResponse`-overlapping fields,
used to witness C1. -/
def errMapC1 : Value :=
  .map [(.text kError, .text [120]), (.text kCode, .int 401),
        (.text kProto, .int 1)]

theorem claim_C1_witness :
    decodeCbor (encodeValue errMapC1) = some (errMapC1, []) ∧
    deserErrorResponse errMapC1 = .ok ⟨[120], 401⟩ ∧
    from_cbor deserStatusResponse (encodeValue errMapC1) = .error (.ckTap [120] 401) ∧
    ∀ t : StatusResponse, from_cbor deserStatusResponse (encodeValue errMapC1) ≠ .ok t := by
  have h := claim_C1_error_precedence deserStatusResponse (encodeValue errMapC1)
    errMapC1 [] ⟨[120], 401⟩ rfl rfl
  exact ⟨rfl, rfl, h.1, h.2⟩

/-- C2: for every 4-byte header and every payload of at most 255 bytes,
`build_apdu` returns exactly the header, a single length byte equal to the
payload's length, and the payload; the frame's total length is
`5 + payload_len`. -/
theorem claim_C2_frame_shape (header payload : List Nat)
    (hh : header.length = 4) (hp : payload.length ≤ 255) :
    build_apdu header payload = some (header ++ payload.length :: payload) ∧
    (header ++ payload.length :: payload).length = 5 + payload.length := by
  constructor
  · simp [build_apdu, hp]
  · simp [hh]
    omega

theorem claim_C2_witness :
    (SELECT_CLA_INS_P1P2 : List Nat).length = 4 ∧ (APP_ID : List Nat).length ≤ 255 ∧
    build_apdu SELECT_CLA_INS_P1P2 APP_ID =
      some (SELECT_CLA_INS_P1P2 ++ APP_ID.length :: APP_ID) ∧
    (SELECT_CLA_INS_P1P2 ++ APP_ID.length :: APP_ID).length = 5 + APP_ID.length := by
  have h := claim_C2_frame_shape SELECT_CLA_INS_P1P2 APP_ID (by decide) (by decide)
  exact ⟨by decide, by decide, h.1, h.2⟩

set_option maxRecDepth 4000 in
/-- C3: at a payload longer than 255 bytes the source `build_apdu` runs
`assert!(command_len <= 255)` and panics — a process abort, modelled as
`none`.  No typed error value is produced (the crate's `Error` enum has no
`ProtocolInvariantViolation` variant), contradicting the claim that
construction is rejected as a typed, non-aborting error result. -/
theorem claim_C3_oversized_panics :
    build_apdu CBOR_CLA_INS_P1P2 (List.replicate 256 0) = none := by
  decide

/-- C4: `AppletSelect` serializes with the SELECT header and the raw 15-byte
application identifier as payload (no CBOR encoding), while every other
command's `apdu_bytes` frames the CBOR serialization of the command under
the CBOR header. -/
theorem claim_C4_headers :
    ((APP_ID : List Nat).length = 15 ∧
      ∀ a : AppletSelect, a.apdu_bytes = some (SELECT_CLA_INS_P1P2 ++ 15 :: APP_ID)) ∧
    (∀ (c : StatusCommand) (frame : List Nat), c.apdu_bytes = some frame →
      frame = CBOR_CLA_INS_P1P2 ++ (encodeValue (statusCommandToValue c)).length ::
        encodeValue (statusCommandToValue c)) ∧
    (∀ (c : ReadCommand) (frame : List Nat), c.apdu_bytes = some frame →
      frame = CBOR_CLA_INS_P1P2 ++ (encodeValue (readCommandToValue c)).length ::
        encodeValue (readCommandToValue c)) ∧
    (∀ (c : WaitCommand) (frame : List Nat), c.apdu_bytes = some frame →
      frame = CBOR_CLA_INS_P1P2 ++ (encodeValue (waitCommandToValue c)).length ::
        encodeValue (waitCommandToValue c)) := by
  refine ⟨⟨by decide, fun a => rfl⟩, ?_, ?_, ?_⟩
  · exact fun c frame h => cborApduBytes_some _ frame h
  · exact fun c frame h => cborApduBytes_some _ frame h
  · exact fun c frame h => cborApduBytes_some _ frame h

/-- The concrete frame the default status command produces. -/
def statusFrameC4 : List Nat :=
  [0, 203, 0, 0, 12, 161, 99, 99, 109, 100, 102, 115, 116, 97, 116, 117, 115]

theorem claim_C4_witness :
    StatusCommand.default.apdu_bytes = some statusFrameC4 ∧
    statusFrameC4 = CBOR_CLA_INS_P1P2 ++
      (encodeValue (statusCommandToValue StatusCommand.default)).length ::
      encodeValue (statusCommandToValue StatusCommand.default) :=
  ⟨rfl, claim_C4_headers.2.1 StatusCommand.default statusFrameC4 rfl⟩

/-- The expected decode of the C5 reply example. -/
def c5Expected (pk cn : List Nat) : StatusResponse :=
  ⟨1, [49, 46, 48, 46, 48], 0, none, none, none, none, none, none, pk, cn, none, some 0⟩

/-- The C5 reply example: the CBOR map
`{"proto":1, "ver":"1.0.0", "birth":0, "pubkey":pk, "card_nonce":cn,
"auth_delay":0}` with byte-string `pubkey`/`card_nonce`. -/
def c5Reply (pk cn : List Nat) : Value :=
  .map [(.text kProto, .int 1), (.text kVer, .text [49, 46, 48, 46, 48]),
        (.text kBirth, .int 0), (.text kPubkey, .bytes pk),
        (.text kCardNonce, .bytes cn), (.text kAuthDelay, .int 0)]

/-- C5: the default `Status` command serializes its payload as the CBOR map
`{"cmd": "status"}`, and the example reply with a 33-byte `pubkey` and a
16-byte `card_nonce` decodes to a `StatusResponse` whose `auth_delay` is
`some 0` and whose every other optional field is `none`. -/
theorem claim_C5_status_example (pk cn : List Nat)
    (hpk : pk.length = 33) (hcn : cn.length = 16) :
    StatusCommand.default.apdu_bytes =
      some (CBOR_CLA_INS_P1P2 ++
        (encodeValue (Value.map [(.text kCmd, .text sStatus)])).length ::
        encodeValue (Value.map [(.text kCmd, .text sStatus)])) ∧
    from_cbor deserStatusResponse (encodeValue (c5Reply pk cn)) =
      .ok (c5Expected pk cn) := by
  constructor
  · rfl
  · have hwf : (c5Expected pk cn).wf := by
      unfold StatusResponse.wf
      simp [c5Expected, hpk, hcn, U64]
    have heq : c5Reply pk cn = statusResponseToValue (c5Expected pk cn) := rfl
    rw [heq]
    exact from_cbor_statusValue (c5Expected pk cn) hwf

theorem claim_C5_witness :
    (List.replicate 33 2 : List Nat).length = 33 ∧
    (List.replicate 16 7 : List Nat).length = 16 ∧
    (StatusCommand.default.apdu_bytes =
      some (CBOR_CLA_INS_P1P2 ++
        (encodeValue (Value.map [(.text kCmd, .text sStatus)])).length ::
        encodeValue (Value.map [(.text kCmd, .text sStatus)])) ∧
    from_cbor deserStatusResponse
        (encodeValue (c5Reply (List.replicate 33 2) (List.replicate 16 7))) =
      .ok (c5Expected (List.replicate 33 2) (List.replicate 16 7))) :=
  ⟨by decide, by decide,
    claim_C5_status_example (List.replicate 33 2) (List.replicate 16 7)
      (by decide) (by decide)⟩

/-- C6: for every `StatusResponse`-shaped CBOR map (which is never shaped
like an error map), encoding it and decoding the bytes through `from_cbor`
yields a `StatusResponse` equal field for field to the source map, with
every omitted optional field decoding to `none`.  Well-formedness only
states that the record's numbers and lengths fit in `usize`, as any value a
Rust `StatusResponse` holds does. -/
theorem claim_C6_roundtrip (r : StatusResponse) (h : r.wf) :
    deserErrorResponse (statusResponseToValue r) = .error "missing field" ∧
    from_cbor deserStatusResponse (encodeValue (statusResponseToValue r)) = .ok r :=
  ⟨deserErrorResponse_statusValue r, from_cbor_statusValue r h⟩

/-- A witness record for C6 with a mix of present and omitted optional
fields. -/
def c6Record : StatusResponse :=
  ⟨5, [49], 100, some [1, 2], none, some true, none, none, some 3,
   List.replicate 33 9, List.replicate 16 1, none, none⟩

theorem claim_C6_witness :
    c6Record.wf ∧
    (deserErrorResponse (statusResponseToValue c6Record) = .error "missing field" ∧
     from_cbor deserStatusResponse (encodeValue (statusResponseToValue c6Record)) =
       .ok c6Record) :=
  ⟨by decide, claim_C6_roundtrip c6Record (by decide)⟩

/-- C7: with initial `auth_delay = N` and wait responses that decrement the
remaining delay by exactly one per call, the session's wait loop issues
exactly `N` wait commands, ends with the delay cleared (Ready), and a loop
entered with the delay cleared issues no wait commands at all. -/
theorem claim_C7_wait_loop (N : Nat) (f : Nat → Nat) (fuel : Nat)
    (hfuel : N ≤ fuel) (hf : ∀ i, i < N → f i = N - 1 - i) :
    waitLoop f fuel 0 (initialAuthDelay N) = (N, none) ∧
    (∀ fu c, waitLoop f fu c none = (c, none)) := by
  constructor
  · cases N with
    | zero => rw [show initialAuthDelay 0 = none from rfl, waitLoop_none]
    | succ n =>
      rw [show initialAuthDelay (n + 1) = some (n + 1) from by simp [initialAuthDelay]]
      have h := waitLoop_exact (n + 1) f fuel 0 (by omega) hfuel
        (by intro i hi; simpa using hf i hi)
      simpa using h
  · intro fu c
    exact waitLoop_none f fu c

theorem claim_C7_witness :
    3 ≤ 3 ∧ (∀ i, i < 3 → (fun i => 2 - i) i = 3 - 1 - i) ∧
    waitLoop (fun i => 2 - i) 3 0 (initialAuthDelay 3) = (3, none) := by
  have h := claim_C7_wait_loop 3 (fun i => 2 - i) 3 (by decide)
    (by intro i hi; interval_cases i <;> rfl)
  exact ⟨by decide, by intro i hi; interval_cases i <;> rfl, h.1⟩

/-- C8: once the status exchange has reported the derivation-path indicator
present, running the one-time initialization fails with
`ProtocolInvariantViolation` and performs zero transport exchanges; and
after any successful initialization a second attempt always fails the same
way, so init never runs twice in a session. -/
theorem claim_C8_init_guard :
    (∀ (s : TapSignerSession) (chain_code : List Nat), s.path.isSome →
      initCard s chain_code = (.error .protocolInvariantViolation, 0)) ∧
    (∀ (s s' : TapSignerSession) (cc cc' : List Nat) (n : Nat),
      initCard s cc = (.ok s', n) →
      initCard s' cc' = (.error .protocolInvariantViolation, 0)) := by
  constructor
  · intro s cc h
    simp [initCard, h]
  · intro s s' cc cc' n h
    unfold initCard at h
    by_cases hp : s.path.isSome
    · rw [if_pos hp] at h
      cases h
    · rw [if_neg hp] at h
      have hs' : s' = { s with path := some cc } := by
        have := congrArg Prod.fst h
        simpa using this.symm
      subst hs'
      simp [initCard]

theorem claim_C8_witness :
    (TapSignerSession.mk none (some [44])).path.isSome = true ∧
    initCard ⟨none, some [44]⟩ [9] = (.error .protocolInvariantViolation, 0) ∧
    (initCard ⟨none, none⟩ [9] = (.ok ⟨none, some [9]⟩, 1) ∧
      initCard ⟨none, some [9]⟩ [10] = (.error .protocolInvariantViolation, 0)) :=
  ⟨by decide, claim_C8_init_guard.1 ⟨none, some [44]⟩ [9] (by decide),
    rfl, claim_C8_init_guard.2 ⟨none, none⟩ ⟨none, some [9]⟩ [9] [10] 1 rfl⟩

/-- C9: serialization of a command is total (the CBOR step never fails), so
`apdu_bytes` succeeds for every command whose encoded payload is at most 255
bytes; field lengths — in particular a `ReadCommand` nonce that is not 16
bytes — are not validated at this layer. -/
theorem claim_C9_serialize_total :
    (∀ c : ReadCommand, (encodeValue (readCommandToValue c)).length ≤ 255 →
      c.apdu_bytes = some (CBOR_CLA_INS_P1P2 ++
        (encodeValue (readCommandToValue c)).length :: encodeValue (readCommandToValue c))) ∧
    (∀ c : StatusCommand, (encodeValue (statusCommandToValue c)).length ≤ 255 →
      c.apdu_bytes = some (CBOR_CLA_INS_P1P2 ++
        (encodeValue (statusCommandToValue c)).length :: encodeValue (statusCommandToValue c))) ∧
    (∀ c : WaitCommand, (encodeValue (waitCommandToValue c)).length ≤ 255 →
      c.apdu_bytes = some (CBOR_CLA_INS_P1P2 ++
        (encodeValue (waitCommandToValue c)).length :: encodeValue (waitCommandToValue c))) := by
  refine ⟨fun c h => ?_, fun c h => ?_, fun c h => ?_⟩ <;>
    simp [ReadCommand.apdu_bytes, StatusCommand.apdu_bytes, WaitCommand.apdu_bytes,
      cborApduBytes, build_apdu, h]

/-- A read command with a 3-byte nonce (not 16): the layer still serializes
it. -/
def shortNonceRead : ReadCommand := ⟨sRead, [1, 2, 3], none, none⟩

theorem claim_C9_witness :
    (encodeValue (readCommandToValue shortNonceRead)).length ≤ 255 ∧
    shortNonceRead.nonce.length ≠ USER_NONCE_SIZE ∧
    shortNonceRead.apdu_bytes = some (CBOR_CLA_INS_P1P2 ++
      (encodeValue (readCommandToValue shortNonceRead)).length ::
      encodeValue (readCommandToValue shortNonceRead)) :=
  ⟨by decide, by decide, claim_C9_serialize_total.1 shortNonceRead (by decide)⟩

/-- C10: `from_cbor` is total — for every input byte vector, including the
empty one, it returns either a typed response or a typed `Error`, never
panicking (the model has no abort outcome for it); on the empty vector it is
the decode error. -/
theorem claim_C10_total {α : Type} :
    (∀ (deserT : Value → Except String α) (bytes : List Nat),
      (∃ t, from_cbor deserT bytes = .ok t) ∨ (∃ e, from_cbor deserT bytes = .error e)) ∧
    (∀ deserT : Value → Except String α,
      from_cbor deserT [] = .error (.ciborDe "deserialization failure")) := by
  constructor
  · intro deserT bytes
    cases h : from_cbor deserT bytes with
    | ok t => exact Or.inl ⟨t, rfl⟩
    | error e => exact Or.inr ⟨e, rfl⟩
  · intro deserT
    rfl

end CkTap
